import Mathlib

/-!
Verification of the Arabian-news batch-processing pipeline (`script.py`).

The Python program is embedded shallowly:

* A Firestore document (news item) is a string-keyed dictionary, modelled as
  an association list `List (String × String)`; `getField` is dictionary
  lookup (`item[k]` / `k in item`), `setField` is dictionary assignment
  (overwrite in place, else append).
* The OpenAI client is an oracle `LLMClient` with one function per endpoint;
  `none` models a raised exception, `some s` a response whose extracted
  text is `s`.  The enrichment functions (`rate_news`, `summarize_news`,
  `translate_to_chinese`) reproduce the two-tier primary/fallback protocol
  of the source, including the exact prompt strings.
* Python float values arising from `float(s)` on clean decimal numerals are
  modelled exactly as rationals (`ℚ`).
* Python list `.sort(key=...)` is a stable ascending sort by key; it is
  modelled by `List.insertionSort` with the key-induced `≤` relation, which
  is sorted, a permutation, and stable — the unique such result.
* Dates and times are civil Gregorian date-time records; `timedelta(days=1)`
  subtraction on a fixed-offset aware datetime is calendar predecessor with
  time of day preserved.
-/

namespace ArabianNews

/-- A Firestore document: a string-keyed dictionary, as an association list. -/
abbrev NewsItem := List (String × String)

/-- Dictionary lookup: `item[k]` when `k in item`, else `None`. -/
def getField (item : NewsItem) (k : String) : Option String :=
  (item.find? (fun p => p.1 == k)).map (fun p => p.2)

/-- Dictionary assignment `item[k] = v`: overwrite the existing binding in
place, else append a new one. -/
def setField : NewsItem → String → String → NewsItem
  | [], k, v => [(k, v)]
  | (k₀, v₀) :: rest, k, v =>
    if k₀ == k then (k, v) :: rest else (k₀, v₀) :: setField rest k v

/-- The OpenAI client, as an oracle: `chatCompletion sys user` models
`client.chat.completions.create` with a system and a user message,
`completion p` models `client.completions.create` with prompt `p`.
`none` is a raised exception; `some s` a response with extracted text `s`. -/
structure LLMClient where
  chatCompletion : String → String → Option String
  completion : String → Option String

/-- A client whose every call raises: total outage of the model API. -/
def failingLLM : LLMClient := ⟨fun _ _ => none, fun _ => none⟩

/-- System message of the rating chat call (source line 133). -/
def rateSystemMsg : String :=
  "You are a business analyst rating news articles for business importance. Rank articles from 1 to 10, where 1 is MOST important and 10 is LEAST important. The most impactful news that business leaders must see should be ranked 1."

/-- User message of the rating chat call; also the prompt of its fallback
completion call (source lines 134 and 148). -/
def ratePrompt (news_article : String) : String :=
  "Rate the following news article for business importance on a scale of 1 to 10 (where 1 is MOST important and 10 is LEAST important):\n\n" ++ news_article

/-- `rate_news` (source lines 125-156): primary chat call, fallback plain
completion, sentinel on double failure. -/
def rate_news (c : LLMClient) (news_article : String) : String :=
  match c.chatCompletion rateSystemMsg (ratePrompt news_article) with
  | some t => t.trim
  | none =>
    match c.completion (ratePrompt news_article) with
    | some t => t.trim
    | none => "Error: Could not rate article"

/-- System message of the summary chat call (source line 166). -/
def summarizeSystemMsg : String :=
  "You are an expert summarizer who creates concise, informative summaries."

/-- User message of the summary chat call; also the prompt of its fallback
completion call (source lines 167 and 181). -/
def summarizePrompt (news_article : String) : String :=
  "Summarize the following news article in about 3 sentences:\n\n" ++ news_article

/-- `summarize_news` (source lines 158-189). -/
def summarize_news (c : LLMClient) (news_article : String) : String :=
  match c.chatCompletion summarizeSystemMsg (summarizePrompt news_article) with
  | some t => t.trim
  | none =>
    match c.completion (summarizePrompt news_article) with
    | some t => t.trim
    | none => "Error: Could not summarize article"

/-- System message of the translation chat call (source line 201). -/
def translateSystemMsg : String :=
  "You are a professional translator. Translate the following text to Simplified Chinese (Mandarin)."

/-- User message of the translation chat call (source line 202). -/
def translatePrompt (text : String) : String :=
  "Please translate this text to Chinese:\n\n" ++ text

/-- Prompt of the translation fallback completion call (source line 216) —
note it differs from the chat user message. -/
def translateFallbackPrompt (text : String) : String :=
  "Translate this text to Chinese:\n\n" ++ text

/-- Python `s.startswith(p)`: codepoint-wise prefix test.  (Extensionally
`String.startsWith`, stated over the character lists.) -/
def strStartsWith (s p : String) : Bool := p.data.isPrefixOf s.data

/-- `translate_to_chinese` (source lines 191-224): short-circuit on empty or
error-sentinel input, then the two-tier protocol. -/
def translate_to_chinese (c : LLMClient) (text : String) : String :=
  if text = "" ∨ strStartsWith text "Error:" then "Error: No text to translate"
  else
    match c.chatCompletion translateSystemMsg (translatePrompt text) with
    | some t => t.trim
    | none =>
      match c.completion (translateFallbackPrompt text) with
      | some t => t.trim
      | none => "Error: Could not translate to Chinese"

/-- The alternative content fields tried after `content` (source line 232). -/
def contentCandidates : List String := ["text", "body", "article", "description"]

/-- The loop over `content_candidates` in `get_content_field`. -/
def findCandidate (item : NewsItem) : List String → Option String
  | [] => none
  | f :: fs =>
    match getField item f with
    | some v => some v
    | none => findCandidate item fs

/-- `get_content_field` (source lines 226-239): return `news_item['content']`
if the key is present, else the first present of the candidate fields, else
`None`. -/
def get_content_field (news_item : NewsItem) : Option String :=
  match getField news_item "content" with
  | some v => some v
  | none => findCandidate news_item contentCandidates

/-- Python `s[:n]`: the first `n` codepoints.  (Extensionally `String.take`,
stated over the character lists.) -/
def strTake (s : String) (n : Nat) : String := String.mk (s.data.take n)

/-- The truncation expression of source line 262:
`content[:3000] if content and len(content) > 3000 else content`. -/
def truncateContent (content : String) : String :=
  if content ≠ "" ∧ content.length > 3000 then strTake content 3000 else content

/-- The guard of source line 283: `'title' in article_copy and
article_copy['title'] and article_copy['title'] != 'No title'`. -/
def titleTranslatable (item : NewsItem) : Bool :=
  match getField item "title" with
  | some t => !(t == "") && !(t == "No title")
  | none => false

/-- The per-article body of the loop in `process_news_articles` (source lines
258-287), for an article whose content resolved to `content`: copy the
record, truncate, set `business_importance`, `summary`, `summary_chinese`,
and conditionally `title_chinese`. -/
def enrichArticle (c : LLMClient) (news : NewsItem) (content : String) : NewsItem :=
  let processed_content := truncateContent content
  let a₁ := setField news "business_importance" (rate_news c processed_content)
  let english_summary := summarize_news c processed_content
  let a₂ := setField a₁ "summary" english_summary
  let a₃ := setField a₂ "summary_chinese" (translate_to_chinese c english_summary)
  if titleTranslatable a₃ then
    setField a₃ "title_chinese" (translate_to_chinese c ((getField a₃ "title").getD ""))
  else a₃

/-- `process_news_articles` (source lines 241-292): resolve the content field;
skip the article when the result is `None` or falsy (empty string);
otherwise enrich and append. -/
def process_news_articles (c : LLMClient) : List NewsItem → List NewsItem
  | [] => []
  | news :: rest =>
    match get_content_field news with
    | none => process_news_articles c rest
    | some content =>
      if content = "" then process_news_articles c rest
      else enrichArticle c news content :: process_news_articles c rest

/-! ### Ranking: the sort key of source line 416

`processed_news.sort(key=lambda x: float(x.get('business_importance', '10'))
  if x.get('business_importance', '10').replace('.', '', 1).isdigit() else 10)`
-/

/-- `s.replace('.', '', 1)`: remove the first `'.'` character, if any. -/
def removeFirstDot : List Char → List Char
  | [] => []
  | ch :: rest => if ch = '.' then rest else ch :: removeFirstDot rest

/-- Python `str.isdigit` restricted to ASCII text: nonempty and all
characters decimal digits.  (The source only ever meets model-produced
ASCII numerals here.) -/
def isdigit (s : String) : Bool :=
  !(s == "") && s.data.all Char.isDigit

/-- The value of a digit character. -/
def digitVal (ch : Char) : Nat := ch.toNat - 48

/-- The natural number denoted by a digit string. -/
def digitsToNat (l : List Char) : Nat :=
  l.foldl (fun acc ch => acc * 10 + digitVal ch) 0

/-- Split a character list at the first `'.'` (integer part, fraction part). -/
def splitAtDot : List Char → List Char × List Char
  | [] => ([], [])
  | ch :: rest =>
    if ch = '.' then ([], rest)
    else
      let p := splitAtDot rest
      (ch :: p.1, p.2)

/-- Python `float(s)` on a clean decimal numeral (digits with at most one
decimal point), modelled exactly as a rational. -/
def parseFloat (s : String) : ℚ :=
  let p := splitAtDot s.data
  (digitsToNat p.1 : ℚ) + (digitsToNat p.2 : ℚ) / (10 : ℚ) ^ p.2.length

/-- The sort key of source line 416: parse `business_importance` (default
`'10'`) as a float when, after stripping at most one decimal point, it is a
nonempty digit string; otherwise `10`. -/
def importanceKey (item : NewsItem) : ℚ :=
  let s := (getField item "business_importance").getD "10"
  if isdigit (String.mk (removeFirstDot s.data)) then parseFloat s else 10

/-- The key-induced ordering on news items. -/
def importanceLE (a b : NewsItem) : Prop := importanceKey a ≤ importanceKey b

/-- Computation-friendly representation of the sort key as an unreduced
fraction (numerator, positive denominator) of naturals. -/
def keyRep (item : NewsItem) : Nat × Nat :=
  let s := (getField item "business_importance").getD "10"
  if isdigit (String.mk (removeFirstDot s.data)) then
    let p := splitAtDot s.data
    (digitsToNat p.1 * 10 ^ p.2.length + digitsToNat p.2, 10 ^ p.2.length)
  else (10, 1)

lemma keyRep_den_pos (item : NewsItem) : 0 < (keyRep item).2 := by
  simp only [keyRep]
  split
  · exact Nat.pos_pow_of_pos _ (by norm_num)
  · norm_num

lemma importanceKey_eq_keyRep (item : NewsItem) :
    importanceKey item = ((keyRep item).1 : ℚ) / ((keyRep item).2 : ℚ) := by
  simp only [importanceKey, keyRep, parseFloat]
  split
  · generalize splitAtDot ((getField item "business_importance").getD "10").data = p
    have h10 : ((10 : ℚ) ^ p.2.length) ≠ 0 := by positivity
    push_cast
    field_simp
  · norm_num

lemma importanceLE_iff_keyRep (a b : NewsItem) :
    importanceLE a b ↔ (keyRep a).1 * (keyRep b).2 ≤ (keyRep b).1 * (keyRep a).2 := by
  unfold importanceLE
  rw [importanceKey_eq_keyRep, importanceKey_eq_keyRep,
    div_le_div_iff₀ (by exact_mod_cast keyRep_den_pos a) (by exact_mod_cast keyRep_den_pos b)]
  exact_mod_cast Iff.rfl

instance : DecidableRel importanceLE :=
  fun a b => decidable_of_iff _ (importanceLE_iff_keyRep a b).symm

instance : IsTotal NewsItem importanceLE :=
  ⟨fun a b => le_total (importanceKey a) (importanceKey b)⟩

instance : IsTrans NewsItem importanceLE :=
  ⟨fun _ _ _ h₁ h₂ => le_trans h₁ h₂⟩

/-- `processed_news.sort(key=...)` (source line 416): Python list sort is a
stable ascending sort by key, which `List.insertionSort` with the
key-induced `≤` realises (sorted + permutation + stable determine the
result uniquely). -/
def sortByImportance (l : List NewsItem) : List NewsItem :=
  l.insertionSort importanceLE

/-! ### Saving (`save_processed_news_to_firebase`, source lines 312-371) -/

/-- The document written for one processed article (`save_data`,
source lines 335-356).  Optional fields are `Option`-valued: `none` means
the key is absent from the saved document. -/
structure SaveData where
  original_article_id : String
  title : String
  date_published : String
  business_importance : String
  summary : String
  processed_at : String
  source : String
  rank : Nat
  summary_chinese : Option String
  title_chinese : Option String
  author : Option String
  category : Option String
  tags : Option String
deriving DecidableEq, Repr

/-- Build `save_data` for one article at a given 1-based rank
(source lines 328-356). -/
def buildSaveData (timestamp : String) (rank : Nat) (article : NewsItem) : SaveData :=
  { original_article_id := (getField article "id").getD ""
    title := (getField article "title").getD "No title"
    date_published := (getField article "date_published").getD ""
    business_importance := (getField article "business_importance").getD "N/A"
    summary := (getField article "summary").getD "N/A"
    processed_at := timestamp
    source := (getField article "article_url").getD ((getField article "url").getD "Unknown")
    rank := rank
    summary_chinese := getField article "summary_chinese"
    title_chinese := getField article "title_chinese"
    author := getField article "author"
    category := getField article "category"
    tags := getField article "tags" }

/-- The save loop (`for rank, article in enumerate(processed_news, start=1)`). -/
def saveLoop (timestamp : String) : Nat → List NewsItem → List SaveData
  | _, [] => []
  | rank, a :: rest => buildSaveData timestamp rank a :: saveLoop timestamp (rank + 1) rest

/-- `save_processed_news_to_firebase` (source lines 312-371): early return
writing nothing when the batch is empty, otherwise one document per article
with rank from `enumerate(..., start=1)` and the single timestamp computed
once before the loop. -/
def save_processed_news (timestamp : String) (processed_news : List NewsItem) : List SaveData :=
  if processed_news = [] then [] else saveLoop timestamp 1 processed_news

/-! ### The run (`main`, source lines 373-439) -/

/-- Observable outcome of one run: the final contents of the destination
collection, and whether `delete_historical_data` and
`save_processed_news_to_firebase` were invoked. -/
structure RunResult where
  finalProcessed : List SaveData
  cleared : Bool
  saveInvoked : Bool
deriving DecidableEq, Repr

/-- `main` (source lines 373-439), with the external world supplied as data:
`rangeResult` is what `fetch_yesterday_news` returns, `fallbackResult` what
the fallback recent query yields (empty also covers its caught-exception
path), `initialProcessed` the destination collection before the run, and
`timestamp` the run timestamp taken in `save_processed_news_to_firebase`.
When any articles were fetched: process, sort by importance, clear the
destination, save; otherwise nothing is touched. -/
def runMain (c : LLMClient) (timestamp : String)
    (rangeResult fallbackResult : List NewsItem)
    (initialProcessed : List SaveData) : RunResult :=
  let news_items := if rangeResult = [] then fallbackResult else rangeResult
  if news_items = [] then
    { finalProcessed := initialProcessed, cleared := false, saveInvoked := false }
  else
    let processed_news := sortByImportance (process_news_articles c news_items)
    { finalProcessed := save_processed_news timestamp processed_news
      cleared := true
      saveInvoked := true }

/-! ### DateWindow (`get_yesterday_date_range`, source lines 18-28) -/

/-- A civil (calendar) date. -/
structure Date where
  year : Nat
  month : Nat
  day : Nat
deriving DecidableEq, Repr

/-- An aware civil date-time: calendar date, time of day, and the fixed
UTC offset (hours) of the attached timezone. -/
structure DateTime where
  date : Date
  hour : Nat
  minute : Nat
  second : Nat
  tzOffsetHours : Int
deriving DecidableEq, Repr

/-- `UAE_TIMEZONE`: Asia/Dubai, fixed UTC+4, no daylight saving. -/
def uaeOffsetHours : Int := 4

/-- Gregorian leap-year rule. -/
def isLeapYear (y : Nat) : Bool :=
  (y % 4 == 0 && !(y % 100 == 0)) || y % 400 == 0

/-- Length of a month. -/
def daysInMonth (y m : Nat) : Nat :=
  if m = 2 then (if isLeapYear y then 29 else 28)
  else if m = 4 ∨ m = 6 ∨ m = 9 ∨ m = 11 then 30
  else 31

/-- The calendar predecessor of a date: the effect of
`now - timedelta(days=1)` on the date fields of a fixed-offset aware
datetime (Python timedelta arithmetic is civil-field arithmetic). -/
def prevDay (d : Date) : Date :=
  if 1 < d.day then ⟨d.year, d.month, d.day - 1⟩
  else if 1 < d.month then ⟨d.year, d.month - 1, daysInMonth d.year (d.month - 1)⟩
  else ⟨d.year - 1, 12, 31⟩

/-- `get_yesterday_date_range` (source lines 18-28): subtract one day from
`now`, then build 00:00:00 and 23:59:59 of that calendar day, both tagged
with the UAE timezone. -/
def get_yesterday_date_range (now : DateTime) : DateTime × DateTime :=
  let yesterday := prevDay now.date
  (⟨yesterday, 0, 0, 0, uaeOffsetHours⟩, ⟨yesterday, 23, 59, 59, uaeOffsetHours⟩)

/-- Validity of a civil date (year ≥ 1, month 1-12, day within the month). -/
def Date.valid (d : Date) : Prop :=
  1 ≤ d.year ∧ 1 ≤ d.month ∧ d.month ≤ 12 ∧ 1 ≤ d.day ∧ d.day ≤ daysInMonth d.year d.month

instance (d : Date) : Decidable d.valid := by
  unfold Date.valid; infer_instance

/-- Leap years strictly before year `y` (for `y ≥ 1`). -/
def leapsBefore (y : Nat) : Nat :=
  (y - 1) / 4 - (y - 1) / 100 + (y - 1) / 400

/-- Days in years strictly before year `y`. -/
def daysBeforeYear (y : Nat) : Nat :=
  365 * (y - 1) + leapsBefore y

/-- Days in the months of year `y` strictly before month `m`. -/
def daysBeforeMonth (y m : Nat) : Nat :=
  ((List.range (m - 1)).map (fun k => daysInMonth y (k + 1))).sum

/-- Day ordinal (Rata Die): the number of the day in a linear count where
0001-01-01 is day 1.  Two dates are consecutive exactly when their ordinals
differ by one. -/
def rataDie (d : Date) : Nat :=
  daysBeforeYear d.year + daysBeforeMonth d.year d.month + d.day

/-- The UTC instant of an aware date-time, in seconds. -/
def DateTime.toSecs (dt : DateTime) : Int :=
  (rataDie dt.date : Int) * 86400 + dt.hour * 3600 + dt.minute * 60 + dt.second
    - dt.tzOffsetHours * 3600

/-! ### Concrete inputs used by the claims -/

/-- Enriched articles carrying the `business_importance` values
`["3", "bad", "1", "10.5"]` of the ranking example. -/
def c1example : List NewsItem :=
  [[("business_importance", "3")], [("business_importance", "bad")],
   [("business_importance", "1")], [("business_importance", "10.5")]]

/-- A fetched article with plain content and no title. -/
def c2item : NewsItem := [("content", "Some article text")]

/-- A record whose first present content field (`content`) is empty while a
later candidate (`body`) is not. -/
def c10item : NewsItem := [("content", ""), ("body", "later text")]

/-- The enrichment of `c2item` under total model-API outage. -/
def c2enriched : NewsItem :=
  [("content", "Some article text"),
   ("business_importance", "Error: Could not rate article"),
   ("summary", "Error: Could not summarize article"),
   ("summary_chinese", "Error: No text to translate")]

/-- A >3000-character content string. -/
def longContent : String := String.mk (List.replicate 3001 'a')

/-! ### Helper lemmas -/

lemma daysBeforeMonth_succ (y k : Nat) :
    daysBeforeMonth y (k + 2) = daysBeforeMonth y (k + 1) + daysInMonth y (k + 1) := by
  show ((List.range (k + 1)).map (fun j => daysInMonth y (j + 1))).sum = _
  rw [List.range_succ, List.map_append, List.sum_append]
  rfl

lemma daysInYear_eq (y : Nat) :
    daysBeforeMonth y 12 + daysInMonth y 12 = if isLeapYear y then 366 else 365 := by
  cases h : isLeapYear y <;>
    norm_num [daysBeforeMonth, daysInMonth, h, List.range_succ]

lemma daysBeforeYear_succ (n : Nat) :
    daysBeforeYear (n + 2) = daysBeforeYear (n + 1) + (if isLeapYear (n + 1) then 366 else 365) := by
  unfold daysBeforeYear leapsBefore
  have hiff : isLeapYear (n + 1) = true
      ↔ (((n + 1) % 4 = 0 ∧ (n + 1) % 100 ≠ 0) ∨ (n + 1) % 400 = 0) := by
    simp [isLeapYear]
  by_cases hl : ((n + 1) % 4 = 0 ∧ (n + 1) % 100 ≠ 0) ∨ (n + 1) % 400 = 0
  · rw [if_pos (hiff.mpr hl)]
    omega
  · rw [if_neg (fun hh => hl (hiff.mp hh))]
    push_neg at hl
    omega

/-- The calendar predecessor of a valid date other than 0001-01-01 is exactly
one day earlier in the linear day count. -/
lemma rataDie_prevDay (d : Date) (hv : d.valid) (h₁ : d ≠ ⟨1, 1, 1⟩) :
    rataDie (prevDay d) + 1 = rataDie d := by
  obtain ⟨hy, hm₁, hm₂, hd₁, hd₂⟩ := hv
  unfold prevDay rataDie
  split
  · -- day > 1
    simp only
    omega
  · split
    · -- day = 1, month > 1
      rename_i hday hmonth
      simp only
      obtain ⟨k, hk⟩ : ∃ k, d.month = k + 2 := ⟨d.month - 2, by omega⟩
      have h := daysBeforeMonth_succ d.year k
      rw [hk]
      have : k + 2 - 1 = k + 1 := by omega
      rw [this]
      omega
    · -- day = 1, month = 1
      rename_i hday hmonth
      have hm : d.month = 1 := by omega
      have hd : d.day = 1 := by omega
      have hy2 : 2 ≤ d.year := by
        rcases Nat.lt_or_ge d.year 2 with h | h
        · exfalso
          apply h₁
          have : d.year = 1 := by omega
          cases d
          simp_all
        · exact h
      simp only
      obtain ⟨n, hn⟩ : ∃ n, d.year = n + 2 := ⟨d.year - 2, by omega⟩
      have hys := daysBeforeYear_succ n
      have hyd := daysInYear_eq (n + 1)
      have h31 : daysInMonth (n + 1) 12 = 31 := rfl
      have hbm1 : daysBeforeMonth d.year d.month = 0 := by
        rw [hm]; rfl
      rw [hn] at hbm1 ⊢
      have : n + 2 - 1 = n + 1 := by omega
      rw [this, hm]
      rw [h31] at hyd
      have hbm0 : daysBeforeMonth (n + 2) 1 = 0 := rfl
      omega

/-- Dictionary lookup on a cons cell. -/
lemma getField_cons (k₀ v₀ : String) (rest : NewsItem) (k' : String) :
    getField ((k₀, v₀) :: rest) k' = if k₀ = k' then some v₀ else getField rest k' := by
  simp only [getField, List.find?]
  by_cases h : k₀ = k'
  · subst h
    simp
  · simp [beq_eq_false_iff_ne.mpr h, h]

/-- Looking up the key just assigned. -/
lemma getField_setField_same (item : NewsItem) (k v : String) :
    getField (setField item k v) k = some v := by
  induction item with
  | nil => simp [setField, getField_cons]
  | cons p rest ih =>
    obtain ⟨k₀, v₀⟩ := p
    by_cases h : k₀ = k
    · simp [setField, h, getField_cons]
    · simp [setField, h, getField_cons, ih]

/-- Assignment leaves other keys untouched. -/
lemma getField_setField_ne (item : NewsItem) (k k' v : String) (h : k ≠ k') :
    getField (setField item k v) k' = getField item k' := by
  induction item with
  | nil => simp [setField, getField, getField_cons, h]
  | cons p rest ih =>
    obtain ⟨k₀, v₀⟩ := p
    by_cases h₀ : k₀ = k
    · subst h₀
      simp [setField, getField_cons, h]
    · simp [setField, h₀, getField_cons, ih]

lemma enrich_business_importance (c : LLMClient) (news : NewsItem) (content : String) :
    getField (enrichArticle c news content) "business_importance"
      = some (rate_news c (truncateContent content)) := by
  simp only [enrichArticle]
  split
  · rw [getField_setField_ne _ _ _ _ (by decide),
      getField_setField_ne _ _ _ _ (by decide),
      getField_setField_ne _ _ _ _ (by decide),
      getField_setField_same]
  · rw [getField_setField_ne _ _ _ _ (by decide),
      getField_setField_ne _ _ _ _ (by decide),
      getField_setField_same]

lemma enrich_summary (c : LLMClient) (news : NewsItem) (content : String) :
    getField (enrichArticle c news content) "summary"
      = some (summarize_news c (truncateContent content)) := by
  simp only [enrichArticle]
  split
  · rw [getField_setField_ne _ _ _ _ (by decide),
      getField_setField_ne _ _ _ _ (by decide),
      getField_setField_same]
  · rw [getField_setField_ne _ _ _ _ (by decide),
      getField_setField_same]

lemma enrich_summary_chinese (c : LLMClient) (news : NewsItem) (content : String) :
    getField (enrichArticle c news content) "summary_chinese"
      = some (translate_to_chinese c (summarize_news c (truncateContent content))) := by
  simp only [enrichArticle]
  split
  · rw [getField_setField_ne _ _ _ _ (by decide), getField_setField_same]
  · rw [getField_setField_same]

/-- The candidate-field loop is a `findSome?` over the candidate list. -/
lemma findCandidate_eq (item : NewsItem) (fs : List String) :
    findCandidate item fs = fs.findSome? (getField item) := by
  induction fs with
  | nil => rfl
  | cons f fs ih =>
    rw [findCandidate, List.findSome?_cons]
    cases getField item f <;> simp [ih]

lemma saveLoop_length (ts : String) (r : Nat) (l : List NewsItem) :
    (saveLoop ts r l).length = l.length := by
  induction l generalizing r with
  | nil => rfl
  | cons a rest ih => simp [saveLoop, ih]

/-- Each record of the save loop carries rank `r + i` at position `i` and the
one run timestamp. -/
lemma saveLoop_get (ts : String) (l : List NewsItem) (r i : Nat)
    (h : i < (saveLoop ts r l).length) :
    ((saveLoop ts r l).get ⟨i, h⟩).rank = r + i
    ∧ ((saveLoop ts r l).get ⟨i, h⟩).processed_at = ts := by
  induction l generalizing r i with
  | nil => simp [saveLoop] at h
  | cons a rest ih =>
    cases i with
    | zero => exact ⟨rfl, rfl⟩
    | succ j =>
      have h' : j < (saveLoop ts (r + 1) rest).length := by
        simp only [saveLoop, List.length_cons] at h
        omega
      have hj := ih (r + 1) j h'
      have hg : (saveLoop ts r (a :: rest)).get ⟨j + 1, h⟩
          = (saveLoop ts (r + 1) rest).get ⟨j, h'⟩ := rfl
      refine ⟨?_, ?_⟩
      · rw [hg, hj.1]
        omega
      · rw [hg, hj.2]

/-- Each saved record carries rank `i + 1` at position `i`, and the single
run timestamp. -/
lemma save_processed_get (ts : String) (l : List NewsItem) (i : Nat)
    (h : i < (save_processed_news ts l).length) :
    ((save_processed_news ts l).get ⟨i, h⟩).rank = i + 1
    ∧ ((save_processed_news ts l).get ⟨i, h⟩).processed_at = ts := by
  cases l with
  | nil => simp [save_processed_news] at h
  | cons a rest =>
    have hsl := saveLoop_get ts (a :: rest) 1 i h
    exact ⟨hsl.1.trans (Nat.add_comm 1 i), hsl.2⟩

/-- Every member of the output of `process_news_articles` is the enrichment
of some fetched article whose content resolved non-empty. -/
lemma mem_process (c : LLMClient) (items : List NewsItem) (a : NewsItem)
    (ha : a ∈ process_news_articles c items) :
    ∃ news content, get_content_field news = some content ∧ content ≠ ""
      ∧ a = enrichArticle c news content := by
  induction items with
  | nil => simp [process_news_articles] at ha
  | cons news rest ih =>
    rw [process_news_articles] at ha
    split at ha
    · exact ih ha
    · rename_i content hres
      split at ha
      · exact ih ha
      · rename_i hc
        rcases List.mem_cons.mp ha with h | h
        · exact ⟨news, content, hres, hc, h⟩
        · exact ih h

/-! ### Claim theorems -/

/-- **C1, counterexample.**  The claim's concrete example is wrong: sorting
enriched articles with `business_importance` values `["3", "bad", "1",
"10.5"]` does not yield the order `["1", "3", "10.5", "bad"]` — the
non-numeric value gets sort key 10, which is *less* than 10.5, so `"bad"`
sorts before `"10.5"`. -/
theorem ranking_example_refuted :
    (sortByImportance c1example).map (fun a => (getField a "business_importance").getD "")
      ≠ ["1", "3", "10.5", "bad"] := by
  decide

/-- **C1 (amended).**  `sortByImportance` (the sort of source line 416) sorts
ascending by `business_importance` parsed as a float; a value that is not a
clean non-negative decimal numeral (at most one decimal point stripped
before the digit check) gets sort key 10; the output is a permutation of the
input (so each stored `business_importance` string is left unchanged); ties
are broken by original order (any pair already in key order keeps its
relative order, which for equal keys is the stability guarantee); and for
the input values `["3", "bad", "1", "10.5"]` the resulting order is
`["1", "3", "bad", "10.5"]`. -/
theorem ranking_sort_key_coercion (l : List NewsItem) :
    List.Sorted importanceLE (sortByImportance l)
    ∧ List.Perm (sortByImportance l) l
    ∧ (∀ a b : NewsItem, importanceKey a ≤ importanceKey b →
        List.Sublist [a, b] l → List.Sublist [a, b] (sortByImportance l))
    ∧ (∀ item : NewsItem,
        isdigit (String.mk (removeFirstDot
          (((getField item "business_importance").getD "10").data))) = false →
        importanceKey item = 10)
    ∧ (sortByImportance c1example).map (fun a => (getField a "business_importance").getD "")
        = ["1", "3", "bad", "10.5"] := by
  refine ⟨List.sorted_insertionSort importanceLE l, List.perm_insertionSort importanceLE l,
    fun a b hab hsub => List.pair_sublist_insertionSort hab hsub,
    fun item hdig => ?_, by decide⟩
  simp only [importanceKey]
  rw [if_neg (by rw [hdig]; decide)]

/-- Witness for C1: the stability conjunct applied to the articles rated
`"3"` and `"10.5"` of the example, and the fallback-key conjunct applied to
the article rated `"bad"`. -/
theorem ranking_sort_key_coercion_witness :
    List.Sublist [[("business_importance", "3")], [("business_importance", "10.5")]]
      (sortByImportance c1example)
    ∧ importanceKey [("business_importance", "bad")] = 10 :=
  ⟨(ranking_sort_key_coercion c1example).2.2.1 _ _
      ((importanceLE_iff_keyRep _ _).mpr (by decide)) (by decide),
    (ranking_sort_key_coercion c1example).2.2.2.1 _ (by decide)⟩

/-- **C2, counterexample.**  The claim is wrong on the code: an article whose
summarize step ended in total failure (sentinel summary) still carries a
`summary_chinese` field, because source line 280 assigns it unconditionally
(the translation of the sentinel short-circuits to
`"Error: No text to translate"`).  Shown on the article `c2item` processed
under total model-API outage. -/
theorem summary_chinese_refuted :
    getField ((process_news_articles failingLLM [c2item]).headI) "summary"
        = some "Error: Could not summarize article"
    ∧ getField ((process_news_articles failingLLM [c2item]).headI) "summary_chinese"
        = some "Error: No text to translate" := by
  decide

/-- **C2 (amended).**  Every enriched article carries a `summary_chinese`
field — the field is assigned unconditionally; when the summarize step ends
in total failure (sentinel summary), the field is present and holds the
translation short-circuit sentinel `"Error: No text to translate"` rather
than being absent. -/
theorem summary_chinese_always_present (c : LLMClient) (items : List NewsItem)
    (a : NewsItem) (ha : a ∈ process_news_articles c items) :
    (getField a "summary_chinese").isSome = true
    ∧ (getField a "summary" = some "Error: Could not summarize article" →
        getField a "summary_chinese" = some "Error: No text to translate") := by
  obtain ⟨news, content, hres, hc, rfl⟩ := mem_process c items a ha
  refine ⟨by rw [enrich_summary_chinese]; rfl, fun hsum => ?_⟩
  rw [enrich_summary] at hsum
  have hs : summarize_news c (truncateContent content)
      = "Error: Could not summarize article" := Option.some.inj hsum
  rw [enrich_summary_chinese, hs]
  simp only [translate_to_chinese]
  rw [if_pos (Or.inr (by decide))]

/-- Witness for C2 (amended), at the enrichment of `c2item` under total
model-API outage. -/
theorem summary_chinese_always_present_witness :
    (getField c2enriched "summary_chinese").isSome = true
    ∧ (getField c2enriched "summary" = some "Error: Could not summarize article" →
        getField c2enriched "summary_chinese" = some "Error: No text to translate") :=
  summary_chinese_always_present failingLLM [c2item] c2enriched (by decide)

/-- **C3.**  For every instant `now` (any valid calendar date other than the
very first representable day 0001-01-01, on which the source would raise),
`get_yesterday_date_range` returns a pair `(start, end)` on the calendar day
immediately preceding `now`'s date (one less in the linear day count),
`start` at 00:00:00 and `end` at 23:59:59, both tagged with the fixed
UAE/Dubai timezone offset UTC+4 (no daylight-saving adjustment anywhere in
the model), and `start ≤ end` as instants. -/
theorem yesterday_range_correct (now : DateTime) (hv : now.date.valid)
    (h₁ : now.date ≠ ⟨1, 1, 1⟩) :
    rataDie (get_yesterday_date_range now).1.date + 1 = rataDie now.date
    ∧ (get_yesterday_date_range now).2.date = (get_yesterday_date_range now).1.date
    ∧ (get_yesterday_date_range now).1.hour = 0
    ∧ (get_yesterday_date_range now).1.minute = 0
    ∧ (get_yesterday_date_range now).1.second = 0
    ∧ (get_yesterday_date_range now).2.hour = 23
    ∧ (get_yesterday_date_range now).2.minute = 59
    ∧ (get_yesterday_date_range now).2.second = 59
    ∧ (get_yesterday_date_range now).1.tzOffsetHours = uaeOffsetHours
    ∧ (get_yesterday_date_range now).2.tzOffsetHours = uaeOffsetHours
    ∧ (get_yesterday_date_range now).1.toSecs ≤ (get_yesterday_date_range now).2.toSecs := by
  refine ⟨rataDie_prevDay now.date hv h₁, rfl, rfl, rfl, rfl, rfl, rfl, rfl, rfl, rfl, ?_⟩
  simp only [DateTime.toSecs, get_yesterday_date_range]
  omega

/-- Witness for C3 at the concrete instant 2024-03-01 15:30:00+04:00 (whose
yesterday is the leap day 2024-02-29). -/
theorem yesterday_range_correct_witness :
    Date.valid ⟨2024, 3, 1⟩
    ∧ rataDie (get_yesterday_date_range ⟨⟨2024, 3, 1⟩, 15, 30, 0, 4⟩).1.date + 1
        = rataDie (⟨⟨2024, 3, 1⟩, 15, 30, 0, 4⟩ : DateTime).date :=
  ⟨by decide,
    (yesterday_range_correct ⟨⟨2024, 3, 1⟩, 15, 30, 0, 4⟩ (by decide) (by decide)).1⟩

/-- **C4.**  `translate_to_chinese` returns `"Error: No text to translate"`
whenever its argument is empty or starts with `"Error:"`; the result is the
same for every client `c`, i.e. no model call influences it. -/
theorem translate_short_circuit (c : LLMClient) (text : String)
    (h : text = "" ∨ strStartsWith text "Error:" = true) :
    translate_to_chinese c text = "Error: No text to translate" := by
  simp only [translate_to_chinese]
  rw [if_pos h]

/-- Witness for C4 at the two inputs named by the claim: `""` and
`"Error: x"`. -/
theorem translate_short_circuit_witness :
    translate_to_chinese failingLLM "" = "Error: No text to translate"
    ∧ translate_to_chinese failingLLM "Error: x" = "Error: No text to translate" :=
  ⟨translate_short_circuit failingLLM "" (Or.inl rfl),
    translate_short_circuit failingLLM "Error: x" (Or.inr (by decide))⟩

/-- **C5.**  Content-field resolution: the content used for enrichment is
the value of the first present field among `content`, `text`, `body`,
`article`, `description` (first match wins, no merging); a record containing
only `body` resolves to that value; and a record with none of the five
fields resolves to not-found (`none`) and the article is skipped without
aborting the batch. -/
theorem content_field_resolution :
    (∀ item : NewsItem,
      get_content_field item
        = ["content", "text", "body", "article", "description"].findSome? (getField item))
    ∧ (∀ v : String, get_content_field [("body", v)] = some v)
    ∧ (∀ item : NewsItem,
        (∀ f ∈ ["content", "text", "body", "article", "description"],
          getField item f = none) →
        get_content_field item = none
        ∧ ∀ (c : LLMClient) (rest : List NewsItem),
            process_news_articles c (item :: rest) = process_news_articles c rest) := by
  have hmain : ∀ item : NewsItem,
      get_content_field item
        = ["content", "text", "body", "article", "description"].findSome? (getField item) := by
    intro item
    unfold get_content_field
    rw [findCandidate_eq, List.findSome?_cons]
    cases getField item "content" <;> rfl
  refine ⟨hmain, fun v => rfl, fun item hnone => ?_⟩
  have hres : get_content_field item = none := by
    rw [hmain item]
    simp [List.findSome?_cons, hnone "content" (by simp), hnone "text" (by simp),
      hnone "body" (by simp), hnone "article" (by simp), hnone "description" (by simp)]
  refine ⟨hres, fun c rest => ?_⟩
  rw [process_news_articles, hres]

/-- Witness for C5: a record holding only an `author` field resolves to
not-found and is skipped. -/
theorem content_field_resolution_witness :
    get_content_field [("author", "x")] = none
    ∧ process_news_articles failingLLM [[("author", "x")]]
        = process_news_articles failingLLM [] :=
  ⟨(content_field_resolution.2.2 [("author", "x")] (by decide)).1,
    (content_field_resolution.2.2 [("author", "x")] (by decide)).2 failingLLM []⟩

/-- **C6.**  Content longer than 3000 characters is truncated to exactly its
first 3000 characters before submission to the enrichment operations
(`enrichArticle` feeds `truncateContent content` to the rating and the
summary calls); content of 3000 characters or fewer is passed unchanged. -/
theorem content_truncation (content : String) :
    (content.length > 3000 →
      truncateContent content = strTake content 3000
      ∧ (truncateContent content).length = 3000)
    ∧ (content.length ≤ 3000 → truncateContent content = content)
    ∧ (∀ (c : LLMClient) (news : NewsItem),
        getField (enrichArticle c news content) "business_importance"
          = some (rate_news c (truncateContent content))
        ∧ getField (enrichArticle c news content) "summary"
          = some (summarize_news c (truncateContent content))) := by
  refine ⟨fun hlen => ?_, fun hlen => ?_,
    fun c news => ⟨enrich_business_importance c news content, enrich_summary c news content⟩⟩
  · have hne : content ≠ "" := by
      intro hq
      subst hq
      exact absurd hlen (by decide)
    refine ⟨by rw [truncateContent, if_pos ⟨hne, hlen⟩], ?_⟩
    rw [truncateContent, if_pos ⟨hne, hlen⟩]
    show (content.data.take 3000).length = 3000
    rw [List.length_take]
    have hdata : content.length = content.data.length := rfl
    omega
  · rw [truncateContent, if_neg ?_]
    rintro ⟨-, hgt⟩
    omega

/-- Witness for C6: a 3001-character string is cut to its first 3000
characters; a short string is passed unchanged. -/
theorem content_truncation_witness :
    truncateContent longContent = strTake longContent 3000
    ∧ truncateContent "short" = "short" :=
  ⟨((content_truncation longContent).1 (by
      show (List.replicate 3001 'a').length > 3000
      rw [List.length_replicate]
      norm_num)).1,
    (content_truncation "short").2.1 (by decide)⟩

/-- **C7.**  When both the primary chat call and the fallback completion
call fail, each enrichment operation returns its fixed sentinel instead of
raising (the embedded operations are total): `rate_news` returns
`"Error: Could not rate article"`, `summarize_news`
`"Error: Could not summarize article"`, and `translate_to_chinese` (on text
that passes its gate, the only case in which its model calls are issued)
`"Error: Could not translate to Chinese"`. -/
theorem enrichment_double_failure_sentinels (c : LLMClient) (article text : String) :
    (c.chatCompletion rateSystemMsg (ratePrompt article) = none →
      c.completion (ratePrompt article) = none →
      rate_news c article = "Error: Could not rate article")
    ∧ (c.chatCompletion summarizeSystemMsg (summarizePrompt article) = none →
      c.completion (summarizePrompt article) = none →
      summarize_news c article = "Error: Could not summarize article")
    ∧ (¬(text = "" ∨ strStartsWith text "Error:" = true) →
      c.chatCompletion translateSystemMsg (translatePrompt text) = none →
      c.completion (translateFallbackPrompt text) = none →
      translate_to_chinese c text = "Error: Could not translate to Chinese") := by
  refine ⟨fun h₁ h₂ => ?_, fun h₁ h₂ => ?_, fun hgate h₁ h₂ => ?_⟩
  · unfold rate_news
    rw [h₁, h₂]
  · unfold summarize_news
    rw [h₁, h₂]
  · unfold translate_to_chinese
    rw [if_neg hgate, h₁, h₂]

/-- Witness for C7 under total model-API outage. -/
theorem enrichment_double_failure_sentinels_witness :
    rate_news failingLLM "x" = "Error: Could not rate article"
    ∧ summarize_news failingLLM "x" = "Error: Could not summarize article"
    ∧ translate_to_chinese failingLLM "x" = "Error: Could not translate to Chinese" :=
  ⟨(enrichment_double_failure_sentinels failingLLM "x" "x").1 rfl rfl,
    (enrichment_double_failure_sentinels failingLLM "x" "x").2.1 rfl rfl,
    (enrichment_double_failure_sentinels failingLLM "x" "x").2.2 (by decide) rfl rfl⟩

/-- **C8.**  When both the date-range fetch and the fallback fetch return no
articles, the destination collection is left entirely unchanged and neither
clearing nor saving is invoked; clearing happens exactly when at least one
article was fetched for processing (and saving is invoked exactly when
clearing is). -/
theorem no_articles_no_mutation (c : LLMClient) (ts : String)
    (rangeResult fallbackResult : List NewsItem) (initial : List SaveData) :
    (rangeResult = [] → fallbackResult = [] →
      runMain c ts rangeResult fallbackResult initial
        = { finalProcessed := initial, cleared := false, saveInvoked := false })
    ∧ ((runMain c ts rangeResult fallbackResult initial).cleared = true
        ↔ (if rangeResult = [] then fallbackResult else rangeResult) ≠ [])
    ∧ (runMain c ts rangeResult fallbackResult initial).saveInvoked
        = (runMain c ts rangeResult fallbackResult initial).cleared := by
  simp only [runMain]
  refine ⟨fun h₁ h₂ => by simp [h₁, h₂], ?_, ?_⟩
  · by_cases hn : (if rangeResult = [] then fallbackResult else rangeResult) = [] <;>
      simp [hn]
  · by_cases hn : (if rangeResult = [] then fallbackResult else rangeResult) = [] <;>
      simp [hn]

/-- Witness for C8: the empty run touches nothing. -/
theorem no_articles_no_mutation_witness :
    runMain failingLLM "T0" [] [] []
      = { finalProcessed := [], cleared := false, saveInvoked := false } :=
  (no_articles_no_mutation failingLLM "T0" [] [] []).1 rfl rfl

/-- **C9.**  Every record written by the save step carries `rank` equal to
its 1-based position in the importance-sorted order, and `processed_at`
equal to the single run timestamp computed once before the save loop. -/
theorem save_rank_and_timestamp (ts : String) (processed : List NewsItem)
    (i : Nat) (h : i < (save_processed_news ts (sortByImportance processed)).length) :
    ((save_processed_news ts (sortByImportance processed)).get ⟨i, h⟩).rank = i + 1
    ∧ ((save_processed_news ts (sortByImportance processed)).get ⟨i, h⟩).processed_at = ts :=
  save_processed_get ts (sortByImportance processed) i h

/-- Witness for C9 at the four-article ranking example. -/
theorem save_rank_and_timestamp_witness :
    ((save_processed_news "T0" (sortByImportance c1example)).get ⟨1, by decide⟩).rank = 2
    ∧ ((save_processed_news "T0" (sortByImportance c1example)).get
        ⟨1, by decide⟩).processed_at = "T0" :=
  ⟨(save_rank_and_timestamp "T0" c1example 1 (by decide)).1,
    (save_rank_and_timestamp "T0" c1example 1 (by decide)).2⟩

/-- **C10.**  When the first present content field of an article holds an
empty string, the article is skipped as having missing content — skipping
is decided by the falsiness of the first match, not only by absence of all
five fields. -/
theorem empty_first_field_skips (c : LLMClient) (item : NewsItem)
    (rest : List NewsItem) (h : get_content_field item = some "") :
    process_news_articles c (item :: rest) = process_news_articles c rest := by
  rw [process_news_articles, h]
  rfl

/-- Witness for C10: a record whose `content` is empty is skipped even
though its later candidate field `body` holds non-empty text. -/
theorem empty_first_field_skips_witness :
    get_content_field c10item = some ""
    ∧ getField c10item "body" = some "later text"
    ∧ process_news_articles failingLLM [c10item] = [] :=
  ⟨by decide, by decide, empty_first_field_skips failingLLM c10item [] (by decide)⟩

end ArabianNews
